import Mathlib

/-!
# The Xft font driver (`src/xftfont.c`): a shallow embedding

C strings are lists of characters (the text before the terminating NUL).
A C `int` is an `Int`; the counter `n_fonts`, which every open counts up,
wraps around at 2^31 as a 32-bit machine integer does.  A call of `malloc` takes its outcome from a
boolean supplied by the caller of the model.  A function that returns a
pointer yields a `Ret`: the value pointed to, `NULL`, or undefined behaviour
(a write past the end of a buffer, a read through `NULL` or in front of an
array).
-/

set_option autoImplicit false

namespace XftFont

/-- Outcome of a C function that returns a pointer. -/
inductive Ret (α : Type) where
  | val (a : α)
  | null
  | undefined
  deriving DecidableEq, Repr

/-! ## Name normalisation: `xft_ndashes`, `xft_pad_fields`, `xft_fillout_xlfd` -/

/-- Source `xft_ndashes`: the number of '-' characters of the string. -/
def xft_ndashes : List Char → Int
  | [] => 0
  | c :: cs => if c = '-' then xft_ndashes cs + 1 else xft_ndashes cs

/-- The C expression `index (s, '-') + 1`: the text that follows the first
'-' of `s`; `none` when `index` returns `NULL`. -/
def afterDash : List Char → Option (List Char)
  | [] => none
  | c :: cs => if c = '-' then some cs else afterDash cs

/-- The loop `while (n--) strcat (buf, piece);` for a counter `n ≥ 0`. -/
def strcatN (buf piece : List Char) : Nat → List Char
  | 0 => buf
  | n + 1 => strcatN (buf ++ piece) piece n

/-- Source `xft_pad_fields`.  `mallocOk` is the outcome of the `malloc`.
When the pattern does not start with '-', the function stores a '-' at the
start of the buffer and advances `new` past it; the value returned is `new`
(the variable `ret`, which keeps the start of the buffer, is never read), so
the string handed back starts after the stored '-'.  A negative `add` makes
`while (add--)` append without end, past the buffer: undefined behaviour. -/
def xft_pad_fields (mallocOk : Bool) (pattern : List Char) : Ret (List Char) :=
  let ndashes0 := xft_ndashes pattern
  let add0 := 14 - ndashes0
  if mallocOk = false then Ret.null
  else
    let lead : Bool := decide (pattern.head? ≠ some '-')
    let add := if lead then add0 - 1 else add0
    let ndashes := if lead then ndashes0 + 1 else ndashes0
    if ndashes < 4 then
      if add < 0 then Ret.undefined
      else Ret.val (strcatN pattern ['-', '*'] add.toNat)
    else
      match (afterDash pattern).bind (fun t => (afterDash t).bind afterDash) with
      | none => Ret.undefined
      | some third =>
        if add < 0 then Ret.undefined
        else
          Ret.val (strcatN (pattern.take (pattern.length - third.length)) ['*', '-'] add.toNat
            ++ third)

/-- The table `numeric` of `xft_fillout_xlfd`. -/
def numeric : List Bool :=
  [false, false, false, false, false, false, false, true,
   false, false, false, true, false, false]

/-- The `for` loop of `xft_fillout_xlfd`, one table entry per round.  The
buffer is `done` followed by the text at `dash`; `dash` is `none` once
`index` has found no '-' and the pointer is `NULL + 1`.  Each round moves
`dash` past the next '-'; for a marked entry, a '*' at `dash` is overwritten
with '0'.  A read through `NULL + 1`, by `index` or by `*dash`, is undefined
behaviour; a round whose entry is not marked does not read `*dash`. -/
def fillLoop : List Bool → List Char → Option (List Char) → Ret (List Char)
  | [], done, some rest => Ret.val (done ++ rest)
  | [], done, none => Ret.val done
  | _ :: _, _, none => Ret.undefined
  | b :: bs, done, some rest =>
    match afterDash rest with
    | none => if b then Ret.undefined else fillLoop bs (done ++ rest) none
    | some r =>
      let seg := rest.take (rest.length - r.length)
      let r1 := if b && decide (r.head? = some '*') then '0' :: r.tail else r
      fillLoop bs (done ++ seg) (some r1)

/-- Source `xft_fillout_xlfd`.  A `NULL` from `xft_pad_fields` is passed to
`index`, which reads through it. -/
def xft_fillout_xlfd (mallocOk : Bool) (pattern : List Char) : Ret (List Char) :=
  match xft_pad_fields mallocOk pattern with
  | Ret.val fourteen => fillLoop numeric [] (some fourteen)
  | Ret.null => Ret.undefined
  | Ret.undefined => Ret.undefined

/-! ### The field view of a name -/

/-- `n` copies of `piece`, one after the other. -/
def copies (n : Nat) (piece : List Char) : List Char :=
  match n with
  | 0 => []
  | k + 1 => piece ++ copies k piece

/-- The pieces of a string between its '-' characters: a string with `d`
hyphens has `d + 1` pieces, the first being the text before the first '-'. -/
def splitDash : List Char → List (List Char)
  | [] => [[]]
  | c :: cs =>
    if c = '-' then [] :: splitDash cs
    else
      match splitDash cs with
      | [] => [[c]]
      | f :: fs => (c :: f) :: fs

/-- Every piece preceded by a '-'. -/
def dashAll : List (List Char) → List Char
  | [] => []
  | g :: gs => '-' :: g ++ dashAll gs

/-- Inverse of `splitDash`: the pieces with a '-' between neighbours. -/
def joinDash : List (List Char) → List Char
  | [] => []
  | f :: fs => f ++ dashAll fs

/-- What the loop of `xft_fillout_xlfd` does to a marked field: a leading
'*' becomes '0'. -/
def zeroStar : List Char → List Char
  | c :: t => if c = '*' then '0' :: t else c :: t
  | [] => []

/-- The reading of the specification: a marked field that is the wildcard
`*` becomes `0`, any other field stays. -/
def zeroWild (f : List Char) : List Char :=
  if f = ['*'] then ['0'] else f

/-- Apply `g` to the pieces whose table entry is set. -/
def fixFields (g : List Char → List Char) : List Bool → List (List Char) → List (List Char)
  | b :: bs, f :: fs => (if b then g f else f) :: fixFields g bs fs
  | [], fs => fs
  | _ :: _, [] => []

/-- The table of `xft_fillout_xlfd` seen from the pieces of `splitDash`:
piece 0 is the text before the first '-', piece `n + 1` is the field that
`numeric[n]` speaks about. -/
def pieceMarks : List Bool := false :: numeric

/-- Modelled after the words of the specification: the padded name with
every marked field that is the wildcard `*` replaced by `0`. -/
def specFillout (padded : List Char) : List Char :=
  joinDash (fixFields zeroWild pieceMarks (splitDash padded))

/-! ## Re-encoding a matched pattern: `xft_xlfd_weight_name`, `xft_xlfd_slant_name`, `xft_xlfd_unparse` -/

/-- The constants of the fontconfig header that the source compares with.
The header is not part of the source, so their values are parameters. -/
structure FcConsts where
  FC_WEIGHT_LIGHT : Int
  FC_WEIGHT_MEDIUM : Int
  FC_WEIGHT_DEMIBOLD : Int
  FC_WEIGHT_BOLD : Int
  FC_WEIGHT_BLACK : Int
  FC_SLANT_ROMAN : Int
  FC_SLANT_ITALIC : Int
  FC_SLANT_OBLIQUE : Int
  FC_PROPORTIONAL : Int

/-- The values that fontconfig gives these constants (weights 50, 100, 180,
200, 210; slants 0, 100, 110; proportional spacing 0). -/
def fontconfigConsts : FcConsts :=
  { FC_WEIGHT_LIGHT := 50, FC_WEIGHT_MEDIUM := 100, FC_WEIGHT_DEMIBOLD := 180,
    FC_WEIGHT_BOLD := 200, FC_WEIGHT_BLACK := 210,
    FC_SLANT_ROMAN := 0, FC_SLANT_ITALIC := 100, FC_SLANT_OBLIQUE := 110,
    FC_PROPORTIONAL := 0 }

/-- Source `xft_xlfd_weight_name`; `/` of C is division truncating toward
zero. -/
def xft_xlfd_weight_name (k : FcConsts) (weight : Int) : String :=
  if weight < (k.FC_WEIGHT_LIGHT + k.FC_WEIGHT_MEDIUM).tdiv 2 then "light"
  else if weight < (k.FC_WEIGHT_MEDIUM + k.FC_WEIGHT_DEMIBOLD).tdiv 2 then "regular"
  else if weight < (k.FC_WEIGHT_DEMIBOLD + k.FC_WEIGHT_BOLD).tdiv 2 then "demibold"
  else if weight < (k.FC_WEIGHT_BOLD + k.FC_WEIGHT_BLACK).tdiv 2 then "bold"
  else "black"

/-- Source `xft_xlfd_slant_name`. -/
def xft_xlfd_slant_name (k : FcConsts) (slant : Int) : String :=
  if slant < (k.FC_SLANT_ROMAN + k.FC_SLANT_ITALIC).tdiv 2 then "r"
  else if slant < (k.FC_SLANT_ITALIC + k.FC_SLANT_OBLIQUE).tdiv 2 then "i"
  else "o"

/-- The attributes of an `FcPattern` that this file reads: `none` is the
answer "no match" of `FcPatternGetString`, `FcPatternGetInteger` or
`FcPatternGetDouble`.  A `double` is an exact rational number here: NaN and
the infinities are left out, and so is the rounding of a sum. -/
structure FcPattern where
  foundry : Option String
  family : Option String
  weight : Option Int
  slant : Option Int
  pixel_size : Option ℚ
  spacing : Option Int
  file0 : Option String
  file1 : Option String

/-- The cast `(int) x` of C: the fraction is dropped, toward zero. -/
def castInt (x : ℚ) : Int := x.num.tdiv x.den

/-- The size that `xft_xlfd_unparse` prints with `%d`: the lines from
`FcPatternGetDouble` to the argument `(int) (pixel + 0.5)`. -/
def xlfd_pixel (pixel_size : Option ℚ) : Int :=
  let pixel : ℚ := match pixel_size with
    | some v => v
    | none => 0
  let pixel : ℚ := if pixel < 0 then 0 else pixel
  let pixel : ℚ := if pixel ≥ 10000 then 9999 else pixel
  castInt (pixel + 1 / 2)

/-- Source `xft_xlfd_unparse`.  The result of `malloc` is not tested: with
`NULL`, `sprintf` writes through it. -/
def xft_xlfd_unparse (k : FcConsts) (mallocOk : Bool) (pattern : FcPattern) : Ret String :=
  let foundry := match pattern.foundry with
    | some s => s
    | none => "*"
  let family := match pattern.family with
    | some s => s
    | none => "*"
  let weight_name := match pattern.weight with
    | some w => xft_xlfd_weight_name k w
    | none => "*"
  let slant_name := match pattern.slant with
    | some s => xft_xlfd_slant_name k s
    | none => "*"
  if mallocOk = false then Ret.undefined
  else
    Ret.val ("-" ++ foundry ++ "-" ++ family ++ "-" ++ weight_name ++ "-" ++ slant_name
      ++ "-*-*-" ++ toString (xlfd_pixel pattern.pixel_size) ++ "-*-*-*-*-0-iso10646-1")

/-! ## The colour cache: `xftfont_get_colors` -/

/-- The `XRenderColor` of Xrender. -/
structure XRenderColor where
  red : Nat
  green : Nat
  blue : Nat
  alpha : Nat
  deriving DecidableEq, Repr

/-- The `XftColor` of Xft. -/
structure XftColor where
  pixel : Nat
  color : XRenderColor
  deriving DecidableEq, Repr

/-- Source `struct xftface_info`; the drawing surface is a handle. -/
structure xftface_info where
  xft_fg : XftColor
  xft_bg : XftColor
  xft_draw : Nat
  deriving DecidableEq, Repr

/-- The members of `struct face` that `xftfont_get_colors` reads: the
graphics context of the face and its logical colours. -/
structure Face where
  gc : Nat
  foreground : Nat
  background : Nat
  deriving DecidableEq, Repr

/-- The members of `XGCValues` asked for with `GCForeground | GCBackground`. -/
structure XGCValues where
  foreground : Nat
  background : Nat
  deriving DecidableEq, Repr

/-- The display server as this function meets it: what `XGetGCValues`
answers for a graphics context and what `XQueryColors` answers for a pixel
of the frame's colormap (red, green, blue). -/
structure XServer where
  gcValues : Nat → XGCValues
  queryColor : Nat → Nat × Nat × Nat

/-- The requests that `xftfont_get_colors` sends to the display server. -/
inductive XRequest where
  | getGCValues (gc : Nat)
  | queryColors (pixels : List Nat)
  deriving DecidableEq, Repr

/-- The colour that the lookup branch stores: the pixel, the answer of
`XQueryColors` for it, and alpha `0xFFFF`. -/
def lookedUp (srv : XServer) (pixel : Nat) : XftColor :=
  { pixel := pixel,
    color := { red := (srv.queryColor pixel).1, green := (srv.queryColor pixel).2.1,
               blue := (srv.queryColor pixel).2.2, alpha := 0xFFFF } }

/-- Source `xftfont_get_colors`.  `info` is `xftface_info` (`none` for
`NULL`); `fg` is what `*fg` holds on entry and `bg` what `*bg` holds (`none`
for a `NULL` pointer).  The result is `*fg`, `*bg` on return and the
requests sent, in order.  `BLOCK_INPUT` and `UNBLOCK_INPUT` are left out. -/
def xftfont_get_colors (srv : XServer) (face : Face) (gc : Nat)
    (info : Option xftface_info) (fg : XftColor) (bg : Option XftColor) :
    XftColor × Option XftColor × List XRequest :=
  match info, decide (face.gc = gc) with
  | some i, true => (i.xft_fg, bg.map (fun _ => i.xft_bg), [])
  | _, _ =>
    let xgcv := srv.gcValues gc
    let fgStep : XftColor × Nat :=
      match info with
      | some i =>
        if xgcv.foreground = face.foreground then (i.xft_fg, 1)
        else if xgcv.foreground = face.background then (i.xft_bg, 1)
        else (fg, 0)
      | none => (fg, 0)
    let bgStep : Option XftColor × Nat :=
      match info with
      | some i =>
        match bg with
        | none => (none, 1)
        | some b =>
          if xgcv.background = face.background then (some i.xft_bg, 1)
          else if xgcv.background = face.foreground then (some i.xft_fg, 1)
          else (some b, 0)
      | none => (bg, 0)
    if fgStep.2 + bgStep.2 < 2 then
      (lookedUp srv xgcv.foreground,
       bgStep.1.map (fun _ => lookedUp srv xgcv.background),
       [XRequest.getGCValues gc,
        XRequest.queryColors
          (match bg with
           | some _ => [xgcv.foreground, xgcv.background]
           | none => [xgcv.foreground])])
    else (fgStep.1, bgStep.1, [XRequest.getGCValues gc])

/-- The cached colour that the foreground test of `xftfont_get_colors`
picks for a live pixel: the logical foreground is tried first. -/
def fgFromCache (face : Face) (info : xftface_info) (pixel : Nat) : Option XftColor :=
  if pixel = face.foreground then some info.xft_fg
  else if pixel = face.background then some info.xft_bg
  else none

/-- The cached colour that the background test of `xftfont_get_colors`
picks for a live pixel: the logical background is tried first. -/
def bgFromCache (face : Face) (info : xftface_info) (pixel : Nat) : Option XftColor :=
  if pixel = face.background then some info.xft_bg
  else if pixel = face.foreground then some info.xft_fg
  else none

/-! ## Opening and closing a font: `xftfont_default_fid`, `xftfont_open`, `xftfont_close` -/

/-- The members of `XftFont` that `xftfont_open` reads. -/
structure XftFontRec where
  ascent : Int
  descent : Int
  max_advance_width : Int
  pattern : FcPattern

/-- The slots of a font entity that `xftfont_open` reads: `extra` is the
pattern saved in the slot `FONT_EXTRA_INDEX` (`none` when the slot does not
hold a saved value), `size` the integer of the slot `FONT_SIZE_INDEX`. -/
structure Entity where
  extra : Option FcPattern
  size : Int

/-- The pseudo `XFontStruct` that `xftfont_open` fills in. -/
structure XFontStruct where
  fid : Nat
  ascent : Int
  descent : Int
  max_bounds_descent : Int
  max_bounds_width : Int
  min_bounds_width : Int

/-- The font that `xftfont_open` returns: the members of `struct font` and
of `struct xftfont_info` that the function sets to something other than
zero.  `name_owned` tells where the pointer `name` comes from: `true` for
the buffer that `xftfont_open` took from `malloc`, `false` for the string
that belongs to the pattern (its second file value). -/
structure Font where
  entity : Entity
  pixel_size : Int
  name : String
  name_owned : Bool
  file_name : String
  size : Int
  ascent : Int
  descent : Int
  height : Int
  average_width : Int
  space_width : Int
  min_width : Int
  xfont : XFontStruct
  xftfont : XftFontRec

/-- The members of `Display_Info` that the driver updates. -/
structure Display_Info where
  n_fonts : Int
  smallest_font_height : Int
  smallest_char_width : Int

/-- The variables that outlive a call: the display information, the global
`fonts_changed_p`, the statics `fid_known` and `fid` of
`xftfont_default_fid`, and the static buffer `ascii_printable`. -/
structure DriverState where
  dpyinfo : Display_Info
  fonts_changed_p : Int
  fid_known : Bool
  fid : Nat
  ascii_printable : List Nat

/-- What the allocator and the libraries answer during one call of
`xftfont_open`: the three calls of `malloc`, `XftFontOpenPattern`, the
`xOff` that `XftTextExtents8` measures for a string on the opened font, and
the two calls of `XLoadFont` (0 for no font). -/
structure OpenEnv where
  mallocName : Bool
  openPattern : Option XftFontRec
  mallocInfo : Bool
  mallocXfont : Bool
  textExtents : List Nat → Int
  loadFixed : Nat
  loadAny : Nat

/-- How a call of `xftfont_open` ends: with a font, with `NULL`, in
undefined behaviour, or in `abort ()`. -/
inductive Opened where
  | font (f : Font)
  | null
  | undefined
  | aborted

/-- Source `xftfont_default_fid`; `none` stands for `abort ()`. -/
def xftfont_default_fid (env : OpenEnv) (st : DriverState) : Option (Nat × DriverState) :=
  if st.fid_known then some (st.fid, st)
  else if env.loadFixed ≠ 0 then
    some (env.loadFixed, { st with fid := env.loadFixed, fid_known := true })
  else if env.loadAny ≠ 0 then
    some (env.loadAny, { st with fid := env.loadAny, fid_known := true })
  else none

/-- The lazy filling of `ascii_printable` in `xftfont_open`: when the first
byte is zero, byte `i` becomes `' ' + i` for `i < 95`. -/
def fillAscii (st : DriverState) : DriverState :=
  if st.ascii_printable.headD 0 = 0 then
    { st with ascii_printable := (List.range 95).map (fun i => 32 + i) }
  else st

/-- The value that a 32-bit `int` holds after `++` or `--` gave `x`: `x`
itself between -2^31 and 2^31 - 1, else `x` wrapped around by 2^32. -/
def wrapInt (x : Int) : Int := (x + 2147483648) % 4294967296 - 2147483648

/-- The update of the display information at the end of `xftfont_open`,
from `dpyinfo->n_fonts++` on, for a font of the given height and minimum
width. -/
def noteOpened (st : DriverState) (height min_width : Int) : DriverState :=
  let n := wrapInt (st.dpyinfo.n_fonts + 1)
  if n = 1 then
    { st with
      dpyinfo := { n_fonts := n, smallest_font_height := height,
                   smallest_char_width := min_width },
      fonts_changed_p := 1 }
  else
    let byHeight : Int × Int :=
      if st.dpyinfo.smallest_font_height > height then
        (height, Int.lor st.fonts_changed_p 1)
      else (st.dpyinfo.smallest_font_height, st.fonts_changed_p)
    let byWidth : Int × Int :=
      if st.dpyinfo.smallest_char_width > min_width then
        (min_width, Int.lor byHeight.2 1)
      else (st.dpyinfo.smallest_char_width, byHeight.2)
    { st with
      dpyinfo := { n_fonts := n, smallest_font_height := byHeight.1,
                   smallest_char_width := byWidth.1 },
      fonts_changed_p := byWidth.2 }

/-- The size of `xftfont_open`: the size of the entity, or `pixel_size` when
the entity says 0. -/
def openSize (entity : Entity) (pixel_size : Int) : Int :=
  if entity.size = 0 then pixel_size else entity.size

/-- The name of the font in `xftfont_open`: the second file value of the
pattern, or else a buffer from `malloc` filled by `sprintf`; `none` when
that `malloc` fails. -/
def openName (env : OpenEnv) (pattern : FcPattern) (file : String) (size : Int) :
    Option String :=
  match pattern.file1 with
  | some n => some n
  | none =>
    if env.mallocName then some (":file=" ++ file ++ ":pixelsize=" ++ toString size)
    else none

/-- The spacing of the opened font, `FC_PROPORTIONAL` when its pattern has
none. -/
def openSpacing (k : FcConsts) (xftfont : XftFontRec) : Int :=
  match xftfont.pattern.spacing with
  | some v => v
  | none => k.FC_PROPORTIONAL

/-- The driver state after the measuring part of `xftfont_open`: only a
proportional font makes the function fill `ascii_printable`. -/
def openMeasured (k : FcConsts) (xftfont : XftFontRec) (st : DriverState) : DriverState :=
  if openSpacing k xftfont ≠ k.FC_PROPORTIONAL then st else fillAscii st

/-- The member `space_width` in `xftfont_open`: the advance of the font when
it is not proportional; else the measured advance of the first byte of
`ascii_printable`, replaced by `pixel_size` when it is not positive. -/
def openSpaceWidth (k : FcConsts) (env : OpenEnv) (xftfont : XftFontRec)
    (st1 : DriverState) (pixel_size : Int) : Int :=
  if openSpacing k xftfont ≠ k.FC_PROPORTIONAL then xftfont.max_advance_width
  else if env.textExtents (st1.ascii_printable.take 1) ≤ 0 then pixel_size
  else env.textExtents (st1.ascii_printable.take 1)

/-- The member `average_width` in `xftfont_open`. -/
def openAverageWidth (k : FcConsts) (env : OpenEnv) (xftfont : XftFontRec)
    (st1 : DriverState) (pixel_size : Int) : Int :=
  if openSpacing k xftfont ≠ k.FC_PROPORTIONAL then xftfont.max_advance_width
  else
    (openSpaceWidth k env xftfont st1 pixel_size
      + env.textExtents ((st1.ascii_printable.drop 1).take 94)).tdiv 95

/-- Source `xftfont_open`.  After the second `malloc` the source tests
`xftfont_info` a second time, which is not `NULL` at that point, so the
outcome of the allocation of `xfont` is not looked at; a `NULL` there is
written through at `xfont->fid = ...`, after the call of
`xftfont_default_fid`. -/
def xftfont_open (k : FcConsts) (env : OpenEnv) (st : DriverState) (entity : Entity)
    (pixel_size : Int) : Opened × DriverState :=
  match entity.extra with
  | none => (Opened.null, st)
  | some pattern =>
    match pattern.file0 with
    | none => (Opened.null, st)
    | some file =>
      match openName env pattern file (openSize entity pixel_size) with
      | none => (Opened.null, st)
      | some name =>
        match env.openPattern with
        | none => (Opened.null, st)
        | some xftfont =>
          match env.mallocInfo with
          | false => (Opened.null, st)
          | true =>
            match xftfont_default_fid env (openMeasured k xftfont st) with
            | none => (Opened.aborted, openMeasured k xftfont st)
            | some (fid, st2) =>
              match env.mallocXfont with
              | false => (Opened.undefined, st2)
              | true =>
                (Opened.font
                  { entity := entity, pixel_size := openSize entity pixel_size,
                    name := name, name_owned := pattern.file1.isNone, file_name := file,
                    size := xftfont.max_advance_width,
                    ascent := xftfont.ascent, descent := xftfont.descent,
                    height := xftfont.ascent + xftfont.descent,
                    average_width :=
                      openAverageWidth k env xftfont (openMeasured k xftfont st) pixel_size,
                    space_width :=
                      openSpaceWidth k env xftfont (openMeasured k xftfont st) pixel_size,
                    min_width :=
                      openSpaceWidth k env xftfont (openMeasured k xftfont st) pixel_size,
                    xfont :=
                      { fid := fid, ascent := xftfont.ascent, descent := xftfont.descent,
                        max_bounds_descent := xftfont.descent,
                        max_bounds_width := xftfont.max_advance_width,
                        min_bounds_width :=
                          openSpaceWidth k env xftfont (openMeasured k xftfont st)
                            pixel_size },
                    xftfont := xftfont },
                 noteOpened st2 (xftfont.ascent + xftfont.descent)
                   (openSpaceWidth k env xftfont (openMeasured k xftfont st) pixel_size))

/-- The glyph formats of FreeType that matter here. -/
inductive GlyphFormat where
  | outline
  | bitmap
  | composite
  deriving DecidableEq, Repr

/-- The glyph slot of a face after `FT_Load_Glyph`: its format and the
points of its outline (`n_points` is the length of the list). -/
structure GlyphSlot where
  format : GlyphFormat
  points : List (Int × Int)
  deriving DecidableEq, Repr

/-- A face of FreeType: what `FT_Load_Glyph` leaves in the glyph slot for a
glyph code, `none` when it reports an error. -/
structure FT_Face where
  load : Nat → Option GlyphSlot

/-- How a call of `xftfont_anchor_point` ends: with a return value and, when
they were written, the values of `*x` and `*y`; or in undefined behaviour. -/
inductive Anchor where
  | returned (value : Int) (xy : Option (Int × Int))
  | undefined
  deriving DecidableEq, Repr

/-- Source `xftfont_anchor_point`.  The only test on `index` is
`index >= n_points`; a negative `index` passes it and `points[index]` is read
in front of the array. -/
def xftfont_anchor_point (ft_face : FT_Face) (code : Nat) (index : Int) : Anchor :=
  match ft_face.load code with
  | none => Anchor.returned (-1) none
  | some glyph =>
    if glyph.format ≠ GlyphFormat.outline then Anchor.returned (-1) none
    else if index ≥ (glyph.points.length : Int) then Anchor.returned (-1) none
    else if index < 0 then Anchor.undefined
    else
      match glyph.points.get? index.toNat with
      | some pt => Anchor.returned 0 (some pt)
      | none => Anchor.undefined

/-! ### Sample values -/

/-- A pattern with the file `/f.ttf` and nothing else. -/
def samplePattern : FcPattern :=
  { foundry := none, family := none, weight := none, slant := none, pixel_size := none,
    spacing := none, file0 := some "/f.ttf", file1 := none }

/-- The same pattern without a file. -/
def patternNoFile : FcPattern := { samplePattern with file0 := none }

/-- Answers under which `xftfont_open` succeeds: every allocation works and
the font opened has ascent 10, descent 3 and maximal advance 8. -/
def sampleEnv : OpenEnv :=
  { mallocName := true,
    openPattern := some { ascent := 10, descent := 3, max_advance_width := 8,
                          pattern := samplePattern },
    mallocInfo := true, mallocXfont := true,
    textExtents := fun str => 6 * str.length,
    loadFixed := 1, loadAny := 2 }

/-- A driver state in which three fonts are open. -/
def sampleState : DriverState :=
  { dpyinfo := { n_fonts := 3, smallest_font_height := 9, smallest_char_width := 5 },
    fonts_changed_p := 0, fid_known := false, fid := 0,
    ascii_printable := List.replicate 95 0 }

/-- A face whose glyph 0 is an outline of two points, (1, 2) and (3, 4). -/
def sampleFace : FT_Face :=
  { load := fun _ => some { format := GlyphFormat.outline, points := [(1, 2), (3, 4)] } }

/-- The answers of `sampleEnv`, except that the `malloc` of the
`struct xftfont_info` fails. -/
def envNoInfo : OpenEnv := { sampleEnv with mallocInfo := false }

/-- The answers of `sampleEnv`, except that the `malloc` of the pseudo
`XFontStruct` fails. -/
def envNoXfont : OpenEnv := { sampleEnv with mallocXfont := false }

end XftFont

namespace XftFont

/-! ## Lemmas on strings -/

theorem xft_ndashes_eq_count (s : List Char) : xft_ndashes s = (s.count '-' : Int) := by
  induction s with
  | nil => simp [xft_ndashes]
  | cons c cs ih =>
    by_cases h : c = '-'
    · subst h; simp [xft_ndashes, ih]
    · have h2 : ¬ (c == '-') = true := by simpa using h
      simp [xft_ndashes, ih, h, List.count_cons, h2]

theorem strcatN_eq (buf piece : List Char) (n : Nat) :
    strcatN buf piece n = buf ++ copies n piece := by
  induction n generalizing buf with
  | zero => simp [strcatN, copies]
  | succ k ih => simp [strcatN, copies, ih]

theorem count_copies_dash_star (n : Nat) : (copies n ['-', '*']).count '-' = n := by
  induction n with
  | zero => simp [copies]
  | succ k ih => simp [copies, ih, List.count_cons]

theorem count_copies_star_dash (n : Nat) : (copies n ['*', '-']).count '-' = n := by
  induction n with
  | zero => simp [copies]
  | succ k ih => simp [copies, ih, List.count_cons]

theorem afterDash_some (s r : List Char) (h : afterDash s = some r) :
    ∃ a, s = a ++ '-' :: r ∧ a.count '-' = 0 := by
  induction s with
  | nil => simp [afterDash] at h
  | cons c cs ih =>
    by_cases hc : c = '-'
    · subst hc
      simp [afterDash] at h
      exact ⟨[], by simp [h], by simp⟩
    · simp [afterDash, hc] at h
      obtain ⟨a, ha, hcount⟩ := ih h
      refine ⟨c :: a, by simp [ha], ?_⟩
      have h2 : ¬ (c == '-') = true := by simpa using hc
      simp [List.count_cons, hcount, h2]

theorem afterDash_of_count (s : List Char) (h : 0 < s.count '-') :
    ∃ r, afterDash s = some r := by
  induction s with
  | nil => simp at h
  | cons c cs ih =>
    by_cases hc : c = '-'
    · subst hc; exact ⟨cs, by simp [afterDash]⟩
    · have h2 : ¬ (c == '-') = true := by simpa using hc
      rw [List.count_cons] at h
      simp only [h2, if_false, Nat.add_zero] at h
      obtain ⟨r, hr⟩ := ih h
      exact ⟨r, by simp [afterDash, hc, hr]⟩

theorem take_seg (a r : List Char) :
    (a ++ '-' :: r).take ((a ++ '-' :: r).length - r.length) = a ++ ['-'] := by
  have h : (a ++ '-' :: r) = (a ++ ['-']) ++ r := by simp
  rw [h]
  have hl : ((a ++ ['-']) ++ r).length - r.length = (a ++ ['-']).length := by
    simp only [List.length_append]; omega
  rw [hl, List.take_left']
  rfl

theorem third_split (s third : List Char)
    (h : (afterDash s).bind (fun t => (afterDash t).bind afterDash) = some third) :
    ∃ pre, s = pre ++ third ∧ pre.count '-' = 3 ∧ pre.getLast? = some '-' ∧
      s.take (s.length - third.length) = pre := by
  obtain ⟨r1, h1, h⟩ := Option.bind_eq_some.mp h
  obtain ⟨r2, h2, h3⟩ := Option.bind_eq_some.mp h
  obtain ⟨a1, e1, c1⟩ := afterDash_some s r1 h1
  obtain ⟨a2, e2, c2⟩ := afterDash_some r1 r2 h2
  obtain ⟨a3, e3, c3⟩ := afterDash_some r2 third h3
  have hs : s = (a1 ++ '-' :: a2 ++ '-' :: a3 ++ ['-']) ++ third := by
    rw [e1, e2, e3]; simp
  refine ⟨a1 ++ '-' :: a2 ++ '-' :: a3 ++ ['-'], hs, ?_, ?_, ?_⟩
  · simp [List.count_append, List.count_cons, c1, c2, c3]
  · exact List.getLast?_concat _
  · have hl : s.length - third.length = (a1 ++ '-' :: a2 ++ '-' :: a3 ++ ['-']).length := by
      rw [hs]; simp only [List.length_append]; omega
    rw [hl]
    conv => lhs; rw [hs]
    exact List.take_left' rfl

theorem third_exists (s : List Char) (h : 3 ≤ s.count '-') :
    ∃ third, (afterDash s).bind (fun t => (afterDash t).bind afterDash) = some third := by
  obtain ⟨r1, h1⟩ := afterDash_of_count s (by omega)
  obtain ⟨a1, e1, c1⟩ := afterDash_some s r1 h1
  have k1 : 2 ≤ r1.count '-' := by
    have e := congrArg (List.count '-') e1
    simp [List.count_append, List.count_cons, c1] at e; omega
  obtain ⟨r2, h2⟩ := afterDash_of_count r1 (by omega)
  obtain ⟨a2, e2, c2⟩ := afterDash_some r1 r2 h2
  have k2 : 1 ≤ r2.count '-' := by
    have e := congrArg (List.count '-') e2
    simp [List.count_append, List.count_cons, c2] at e; omega
  obtain ⟨r3, h3⟩ := afterDash_of_count r2 (by omega)
  exact ⟨r3, by simp [h1, h2, h3]⟩

/-- The two branches of `xft_pad_fields` on a name that starts with '-' and
has at most 14 hyphens. -/
theorem pad_fields_dash (name : List Char) (h0 : name.head? = some '-')
    (hd : name.count '-' ≤ 14) :
    (name.count '-' < 4 →
      xft_pad_fields true name
        = Ret.val (name ++ copies (14 - name.count '-') ['-', '*'])) ∧
    (4 ≤ name.count '-' →
      ∃ pre post, name = pre ++ post ∧ pre.count '-' = 3 ∧ pre.getLast? = some '-' ∧
        xft_pad_fields true name
          = Ret.val (pre ++ copies (14 - name.count '-') ['*', '-'] ++ post)) := by
  have hn : ((14 : Int) - (name.count '-' : Int)).toNat = 14 - name.count '-' := by omega
  have hnn : ¬ ((14 : Int) - (name.count '-' : Int) < 0) := by omega
  constructor
  · intro hlt
    have hlt2 : ((name.count '-' : Nat) : Int) < 4 := by omega
    simp [xft_pad_fields, h0, xft_ndashes_eq_count, hlt2, hnn, hn, strcatN_eq]
  · intro hge
    have hge2 : ¬ (((name.count '-' : Nat) : Int) < 4) := by omega
    obtain ⟨third, ht⟩ := third_exists name (by omega)
    obtain ⟨pre, hs, hc, hl, htake⟩ := third_split name third ht
    refine ⟨pre, third, hs, hc, hl, ?_⟩
    simp only [xft_pad_fields, h0, xft_ndashes_eq_count]
    simp [hge2, hnn, hn, strcatN_eq, ht, htake]

/-! ## Lemmas on the field view and on the loop of `xft_fillout_xlfd` -/

theorem splitDash_cons (s : List Char) : ∃ f fs, splitDash s = f :: fs := by
  induction s with
  | nil => exact ⟨[], [], rfl⟩
  | cons c cs ih =>
    obtain ⟨f, fs, hf⟩ := ih
    by_cases hc : c = '-'
    · exact ⟨[], splitDash cs, by simp [splitDash, hc]⟩
    · exact ⟨c :: f, fs, by simp [splitDash, hc, hf]⟩

theorem splitDash_append_dash (a r : List Char) (ha : a.count '-' = 0) :
    splitDash (a ++ '-' :: r) = a :: splitDash r := by
  induction a with
  | nil => simp [splitDash]
  | cons c cs ih =>
    have hc : c ≠ '-' := by
      intro h; subst h; simp at ha
    have h2 : ¬ (c == '-') = true := by simpa using hc
    have hcs : cs.count '-' = 0 := by
      rw [List.count_cons] at ha; simp only [h2, if_false, Nat.add_zero] at ha; exact ha
    simp [splitDash, hc, ih hcs]

theorem joinDash_splitDash (s : List Char) : joinDash (splitDash s) = s := by
  induction s with
  | nil => simp [splitDash, joinDash, dashAll]
  | cons c cs ih =>
    obtain ⟨f, fs, hf⟩ := splitDash_cons cs
    by_cases hc : c = '-'
    · subst hc
      rw [hf] at ih
      simp [splitDash, hf, joinDash, dashAll] at ih ⊢
      exact ih
    · rw [hf] at ih
      simp [splitDash, hc, hf, joinDash] at ih ⊢
      exact ih

theorem splitDash_overwrite (b : Bool) (r f : List Char) (fs : List (List Char))
    (h : splitDash r = f :: fs) :
    splitDash (if b && decide (r.head? = some '*') then '0' :: r.tail else r)
      = (if b then zeroStar f else f) :: fs := by
  cases r with
  | nil =>
    simp [splitDash] at h
    obtain ⟨hf, hfs⟩ := h
    subst hf; subst hfs
    cases b <;> simp [splitDash, zeroStar]
  | cons c t =>
    obtain ⟨g, gs, hg⟩ := splitDash_cons t
    by_cases hstar : c = '*'
    · subst hstar
      simp [splitDash, hg] at h
      obtain ⟨hf, hfs⟩ := h
      subst hf; subst hfs
      cases b <;> simp [splitDash, zeroStar, hg]
    · by_cases hc : c = '-'
      · subst hc
        simp [splitDash] at h
        obtain ⟨hf, hfs⟩ := h
        subst hf; subst hfs
        cases b <;> simp [splitDash, zeroStar]
      · simp [splitDash, hg, hc] at h
        obtain ⟨hf, hfs⟩ := h
        subst hf; subst hfs
        cases b <;> simp [splitDash, zeroStar, hg, hc, hstar]

theorem count_overwrite (b : Bool) (r : List Char) :
    (if b && decide (r.head? = some '*') then '0' :: r.tail else r).count '-'
      = r.count '-' := by
  cases r with
  | nil => cases b <;> simp
  | cons c t =>
    by_cases hstar : c = '*'
    · subst hstar; cases b <;> simp [List.count_cons]
    · cases b <;> simp [hstar]

theorem fillLoop_eq (bs : List Bool) :
    ∀ done rest : List Char, bs.length ≤ rest.count '-' →
      fillLoop bs done (some rest)
        = Ret.val (done ++ joinDash (fixFields zeroStar (false :: bs) (splitDash rest))) := by
  induction bs with
  | nil =>
    intro done rest _
    obtain ⟨f, fs, hf⟩ := splitDash_cons rest
    have hj := joinDash_splitDash rest
    rw [hf] at hj
    simp [fillLoop, fixFields, hf, hj]
  | cons b bs ih =>
    intro done rest hlen
    obtain ⟨r, hr⟩ := afterDash_of_count rest (by simp at hlen; omega)
    obtain ⟨a, e, ca⟩ := afterDash_some rest r hr
    obtain ⟨f, fs, hf⟩ := splitDash_cons r
    have hcount : rest.count '-' = r.count '-' + 1 := by
      have e2 := congrArg (List.count '-') e
      simp [List.count_append, List.count_cons, ca] at e2; omega
    have hlen2 : bs.length
        ≤ (if b && decide (r.head? = some '*') then '0' :: r.tail else r).count '-' := by
      rw [count_overwrite]; simp at hlen; omega
    have hseg : rest.take (rest.length - r.length) = a ++ ['-'] := by
      rw [e]; exact take_seg a r
    have hsplit : splitDash rest = a :: f :: fs := by
      rw [e, splitDash_append_dash a r ca, hf]
    simp only [fillLoop, hr]
    rw [ih _ _ hlen2, hseg, splitDash_overwrite b r f fs hf, hsplit]
    simp [fixFields, joinDash, dashAll]

theorem fillLoop_none (bs : List Bool) (done q : List Char)
    (h : fillLoop bs done none = Ret.val q) : q = done := by
  cases bs with
  | nil => simp [fillLoop] at h; exact h.symm
  | cons b bs => simp [fillLoop] at h

theorem fillLoop_count (bs : List Bool) :
    ∀ done rest q : List Char, fillLoop bs done (some rest) = Ret.val q →
      q.count '-' = done.count '-' + rest.count '-' ∧ ∃ t, q = done ++ t := by
  induction bs with
  | nil =>
    intro done rest q h
    simp [fillLoop] at h
    subst h
    exact ⟨by simp [List.count_append], rest, rfl⟩
  | cons b bs ih =>
    intro done rest q h
    cases hr : afterDash rest with
    | none =>
      simp only [fillLoop, hr] at h
      cases b with
      | true => simp at h
      | false =>
        simp only [Bool.false_eq_true, if_false] at h
        have hq := fillLoop_none bs _ q h
        subst hq
        exact ⟨by simp [List.count_append], rest, rfl⟩
    | some r =>
      obtain ⟨a, e, ca⟩ := afterDash_some rest r hr
      have hseg : rest.take (rest.length - r.length) = a ++ ['-'] := by
        rw [e]; exact take_seg a r
      simp only [fillLoop, hr] at h
      obtain ⟨hc, t, ht⟩ := ih _ _ q h
      rw [count_overwrite, hseg] at hc
      rw [hseg] at ht
      constructor
      · rw [hc, e]; simp [List.count_append, List.count_cons, ca]; omega
      · exact ⟨a ++ ['-'] ++ t, by rw [ht]; simp⟩

theorem head_of_append (pre post : List Char) (hpre : pre.count '-' = 3)
    (h0 : (pre ++ post).head? = some '-') : pre.head? = some '-' := by
  cases pre with
  | nil => simp at hpre
  | cons c cs => simpa using h0

/-- On a name that starts with '-' and has at most 14 hyphens,
`xft_pad_fields` returns a string that starts with '-' and has 14 hyphens. -/
theorem pad_fields_fourteen (name : List Char) (h0 : name.head? = some '-')
    (hd : name.count '-' ≤ 14) :
    ∃ p, xft_pad_fields true name = Ret.val p ∧ p.head? = some '-' ∧ p.count '-' = 14 := by
  obtain ⟨hlo, hhi⟩ := pad_fields_dash name h0 hd
  by_cases hlt : name.count '-' < 4
  · refine ⟨_, hlo hlt, ?_, ?_⟩
    · cases name with
      | nil => simp at h0
      | cons c cs => simpa using h0
    · rw [List.count_append, count_copies_dash_star]; omega
  · obtain ⟨pre, post, hs, hc, _, hp⟩ := hhi (by omega)
    refine ⟨_, hp, ?_, ?_⟩
    · have hh := head_of_append pre post hc (by rw [← hs]; exact h0)
      cases pre with
      | nil => simp at hc
      | cons c cs => simpa using hh
    · have e := congrArg (List.count '-') hs
      rw [List.count_append] at e
      rw [List.count_append, List.count_append, count_copies_star_dash]
      omega

/-- On a string that starts with '-' and has 14 hyphens, the loop of
`xft_fillout_xlfd` ends with the marked fields rewritten, the result again
starting with '-' and having 14 hyphens. -/
theorem fillLoop_fourteen (p : List Char) (h0 : p.head? = some '-')
    (hd : p.count '-' = 14) :
    fillLoop numeric [] (some p)
        = Ret.val (joinDash (fixFields zeroStar pieceMarks (splitDash p))) ∧
      (joinDash (fixFields zeroStar pieceMarks (splitDash p))).head? = some '-' ∧
      (joinDash (fixFields zeroStar pieceMarks (splitDash p))).count '-' = 14 := by
  have heq := fillLoop_eq numeric [] p (by rw [hd]; decide)
  simp only [List.nil_append] at heq
  have hq : fillLoop numeric [] (some p)
      = Ret.val (joinDash (fixFields zeroStar pieceMarks (splitDash p))) := heq
  refine ⟨hq, ?_, ?_⟩
  · cases p with
    | nil => simp at h0
    | cons c t =>
      have hc : c = '-' := by simpa using h0
      subst hc
      have hstep : fillLoop numeric [] (some ('-' :: t))
          = fillLoop numeric.tail ['-'] (some t) := by
        simp [numeric, fillLoop, afterDash]
      rw [hstep] at hq
      obtain ⟨_, u, hu⟩ := fillLoop_count _ _ _ _ hq
      rw [hu]; rfl
  · obtain ⟨hc, _⟩ := fillLoop_count _ _ _ _ hq
    rw [hc, hd]; rfl

theorem splitDash_length (s : List Char) : (splitDash s).length = s.count '-' + 1 := by
  induction s with
  | nil => simp [splitDash]
  | cons c cs ih =>
    obtain ⟨f, fs, hf⟩ := splitDash_cons cs
    by_cases hc : c = '-'
    · subst hc; simp [splitDash, ih]
    · have h2 : ¬ (c == '-') = true := by simpa using hc
      rw [hf] at ih
      simp [splitDash, hc, hf, List.count_cons, h2] at ih ⊢
      exact ih

/-! ## The claims on name normalisation -/

/-- C1, as amended: for every name that begins with '-' and contains at most
14 hyphens, `xft_pad_fields` and `xft_fillout_xlfd` (the allocation
succeeding) both return a string that begins with '-' and contains exactly
14 '-' characters. -/
theorem pad_fillout_fourteen_fields (name : List Char) (h0 : name.head? = some '-')
    (hd : xft_ndashes name ≤ 14) :
    ∃ p q, xft_pad_fields true name = Ret.val p ∧ xft_fillout_xlfd true name = Ret.val q ∧
      p.head? = some '-' ∧ xft_ndashes p = 14 ∧
      q.head? = some '-' ∧ xft_ndashes q = 14 := by
  rw [xft_ndashes_eq_count] at hd
  obtain ⟨p, hp, hp0, hpc⟩ := pad_fields_fourteen name h0 (by omega)
  obtain ⟨hq, hq0, hqc⟩ := fillLoop_fourteen p hp0 hpc
  refine ⟨p, _, hp, ?_, hp0, ?_, hq0, ?_⟩
  · simp only [xft_fillout_xlfd, hp]; exact hq
  · rw [xft_ndashes_eq_count, hpc]; rfl
  · rw [xft_ndashes_eq_count, hqc]; rfl

/-- C1, witness: the amended statement at the name `-a-b`. -/
theorem pad_fillout_fourteen_fields_witness :
    "-a-b".toList.head? = some '-' ∧ xft_ndashes "-a-b".toList ≤ 14 ∧
    ∃ p q, xft_pad_fields true "-a-b".toList = Ret.val p ∧
      xft_fillout_xlfd true "-a-b".toList = Ret.val q ∧
      p.head? = some '-' ∧ xft_ndashes p = 14 ∧
      q.head? = some '-' ∧ xft_ndashes q = 14 :=
  ⟨by decide, by decide, pad_fillout_fourteen_fields "-a-b".toList (by decide) (by decide)⟩

/-- C1, counterexample: on `times-12`, which does not begin with '-',
`xft_pad_fields` returns a string that does not begin with '-' and has 13
hyphens; on a name of 15 hyphens neither function returns a string. -/
theorem pad_fields_not_fourteen :
    xft_pad_fields true "times-12".toList
        = Ret.val "times-12-*-*-*-*-*-*-*-*-*-*-*-*".toList ∧
      "times-12-*-*-*-*-*-*-*-*-*-*-*-*".toList.head? ≠ some '-' ∧
      xft_ndashes "times-12-*-*-*-*-*-*-*-*-*-*-*-*".toList = 13 ∧
      xft_ndashes "---------------".toList = 15 ∧
      xft_pad_fields true "---------------".toList = Ret.undefined ∧
      xft_fillout_xlfd true "---------------".toList = Ret.undefined := by
  decide

/-- C2: for every name that begins with '-' and has `d ≤ 14` hyphens,
`xft_pad_fields` returns the name followed by `14 - d` copies of `-*` when
`d < 4`, and the name with `14 - d` copies of `*-` inserted right after its
third hyphen when `d ≥ 4`; with `d = 14` the name comes back unchanged. -/
theorem pad_fields_append_or_splice (name : List Char) (h0 : name.head? = some '-')
    (hd : xft_ndashes name ≤ 14) :
    (xft_ndashes name < 4 →
      xft_pad_fields true name
        = Ret.val (name ++ copies (14 - xft_ndashes name).toNat ['-', '*'])) ∧
    (4 ≤ xft_ndashes name →
      ∃ pre post, name = pre ++ post ∧ xft_ndashes pre = 3 ∧ pre.getLast? = some '-' ∧
        xft_pad_fields true name
          = Ret.val (pre ++ copies (14 - xft_ndashes name).toNat ['*', '-'] ++ post)) ∧
    (xft_ndashes name = 14 → xft_pad_fields true name = Ret.val name) := by
  rw [xft_ndashes_eq_count] at hd ⊢
  have hn : ((14 : Int) - (name.count '-' : Int)).toNat = 14 - name.count '-' := by omega
  obtain ⟨hlo, hhi⟩ := pad_fields_dash name h0 (by omega)
  rw [hn]
  refine ⟨fun h => hlo (by omega), ?_, ?_⟩
  · intro h
    obtain ⟨pre, post, hs, hc, hl, hp⟩ := hhi (by omega)
    exact ⟨pre, post, hs, by rw [xft_ndashes_eq_count, hc]; rfl, hl, hp⟩
  · intro h
    obtain ⟨pre, post, hs, hc, hl, hp⟩ := hhi (by omega)
    have h14 : 14 - name.count '-' = 0 := by omega
    rw [hp, h14]
    simp [copies, hs]

/-- C2, witness: the statement at the name `-a-b-c-d-e`. -/
theorem pad_fields_append_or_splice_witness :
    "-a-b-c-d-e".toList.head? = some '-' ∧ xft_ndashes "-a-b-c-d-e".toList ≤ 14 ∧
    ((xft_ndashes "-a-b-c-d-e".toList < 4 →
      xft_pad_fields true "-a-b-c-d-e".toList
        = Ret.val ("-a-b-c-d-e".toList
            ++ copies (14 - xft_ndashes "-a-b-c-d-e".toList).toNat ['-', '*'])) ∧
    (4 ≤ xft_ndashes "-a-b-c-d-e".toList →
      ∃ pre post, "-a-b-c-d-e".toList = pre ++ post ∧ xft_ndashes pre = 3 ∧
        pre.getLast? = some '-' ∧
        xft_pad_fields true "-a-b-c-d-e".toList
          = Ret.val (pre ++ copies (14 - xft_ndashes "-a-b-c-d-e".toList).toNat ['*', '-']
              ++ post)) ∧
    (xft_ndashes "-a-b-c-d-e".toList = 14 →
      xft_pad_fields true "-a-b-c-d-e".toList = Ret.val "-a-b-c-d-e".toList)) :=
  ⟨by decide, by decide,
    pad_fields_append_or_splice "-a-b-c-d-e".toList (by decide) (by decide)⟩

/-- C3, as amended: for every name that begins with '-' and has at most 14
hyphens, the result of `xft_fillout_xlfd` is the result of `xft_pad_fields`
(15 pieces around 14 hyphens) in which every field at a position marked
numeric whose first character is '*' has that character replaced by '0'; a
marked field that is the wildcard `*` thus becomes `0`, and every other
character is unchanged. -/
theorem fillout_zeroes_leading_star (name : List Char) (h0 : name.head? = some '-')
    (hd : xft_ndashes name ≤ 14) :
    ∃ p, xft_pad_fields true name = Ret.val p ∧
      joinDash (splitDash p) = p ∧ (splitDash p).length = 15 ∧
      zeroStar ['*'] = ['0'] ∧
      xft_fillout_xlfd true name
        = Ret.val (joinDash (fixFields zeroStar pieceMarks (splitDash p))) := by
  rw [xft_ndashes_eq_count] at hd
  obtain ⟨p, hp, hp0, hpc⟩ := pad_fields_fourteen name h0 (by omega)
  obtain ⟨hq, _, _⟩ := fillLoop_fourteen p hp0 hpc
  refine ⟨p, hp, joinDash_splitDash p, by rw [splitDash_length, hpc], by decide, ?_⟩
  simp only [xft_fillout_xlfd, hp]; exact hq

/-- C3, witness: the amended statement at the name of scenario A, which
`xft_fillout_xlfd` turns into `-*-times-bold-r-*-*-12-0-*-*-*-0-*-*`. -/
theorem fillout_zeroes_leading_star_witness :
    "-*-times-bold-r-*-*-12-*-*-*-*-*-*-*".toList.head? = some '-' ∧
    xft_ndashes "-*-times-bold-r-*-*-12-*-*-*-*-*-*-*".toList ≤ 14 ∧
    xft_fillout_xlfd true "-*-times-bold-r-*-*-12-*-*-*-*-*-*-*".toList
      = Ret.val "-*-times-bold-r-*-*-12-0-*-*-*-0-*-*".toList ∧
    ∃ p, xft_pad_fields true "-*-times-bold-r-*-*-12-*-*-*-*-*-*-*".toList = Ret.val p ∧
      joinDash (splitDash p) = p ∧ (splitDash p).length = 15 ∧
      zeroStar ['*'] = ['0'] ∧
      xft_fillout_xlfd true "-*-times-bold-r-*-*-12-*-*-*-*-*-*-*".toList
        = Ret.val (joinDash (fixFields zeroStar pieceMarks (splitDash p))) :=
  ⟨by decide, by decide, by decide,
    fillout_zeroes_leading_star "-*-times-bold-r-*-*-12-*-*-*-*-*-*-*".toList
      (by decide) (by decide)⟩

/-- C3, counterexample: in `-a-b-c-d-e-f-g-*h-i-j-k-l-m-n` the field `*h`
stands at a marked position and is not the wildcard `*`; the claim leaves it
as it is, `xft_fillout_xlfd` turns it into `0h`. -/
theorem fillout_rewrites_non_wildcard :
    xft_pad_fields true "-a-b-c-d-e-f-g-*h-i-j-k-l-m-n".toList
        = Ret.val "-a-b-c-d-e-f-g-*h-i-j-k-l-m-n".toList ∧
      specFillout "-a-b-c-d-e-f-g-*h-i-j-k-l-m-n".toList
        = "-a-b-c-d-e-f-g-*h-i-j-k-l-m-n".toList ∧
      xft_fillout_xlfd true "-a-b-c-d-e-f-g-*h-i-j-k-l-m-n".toList
        = Ret.val "-a-b-c-d-e-f-g-0h-i-j-k-l-m-n".toList ∧
      xft_fillout_xlfd true "-a-b-c-d-e-f-g-*h-i-j-k-l-m-n".toList
        ≠ Ret.val (specFillout "-a-b-c-d-e-f-g-*h-i-j-k-l-m-n".toList) := by
  decide

/-! ## The claims on the re-encoding of a matched pattern -/

/-- C4, as amended: for weight constants `0 ≤ light < medium < demibold <
bold < black`, a weight equal to the midpoint of an adjacent pair is mapped
by `xft_xlfd_weight_name` to the name of the upper bucket of that pair:
regular, demibold, bold and black. -/
theorem weight_midpoint_upper_bucket (k : FcConsts) (h0 : 0 ≤ k.FC_WEIGHT_LIGHT)
    (h1 : k.FC_WEIGHT_LIGHT < k.FC_WEIGHT_MEDIUM)
    (h2 : k.FC_WEIGHT_MEDIUM < k.FC_WEIGHT_DEMIBOLD)
    (h3 : k.FC_WEIGHT_DEMIBOLD < k.FC_WEIGHT_BOLD)
    (h4 : k.FC_WEIGHT_BOLD < k.FC_WEIGHT_BLACK) :
    xft_xlfd_weight_name k ((k.FC_WEIGHT_LIGHT + k.FC_WEIGHT_MEDIUM).tdiv 2) = "regular" ∧
    xft_xlfd_weight_name k ((k.FC_WEIGHT_MEDIUM + k.FC_WEIGHT_DEMIBOLD).tdiv 2)
      = "demibold" ∧
    xft_xlfd_weight_name k ((k.FC_WEIGHT_DEMIBOLD + k.FC_WEIGHT_BOLD).tdiv 2) = "bold" ∧
    xft_xlfd_weight_name k ((k.FC_WEIGHT_BOLD + k.FC_WEIGHT_BLACK).tdiv 2) = "black" := by
  have e1 := @Int.tdiv_eq_ediv (k.FC_WEIGHT_LIGHT + k.FC_WEIGHT_MEDIUM) 2 (by omega) (by omega)
  have e2 := @Int.tdiv_eq_ediv (k.FC_WEIGHT_MEDIUM + k.FC_WEIGHT_DEMIBOLD) 2
    (by omega) (by omega)
  have e3 := @Int.tdiv_eq_ediv (k.FC_WEIGHT_DEMIBOLD + k.FC_WEIGHT_BOLD) 2
    (by omega) (by omega)
  have e4 := @Int.tdiv_eq_ediv (k.FC_WEIGHT_BOLD + k.FC_WEIGHT_BLACK) 2 (by omega) (by omega)
  simp only [xft_xlfd_weight_name, e1, e2, e3, e4]
  refine ⟨?_, ?_, ?_, ?_⟩
  · rw [if_neg (by omega), if_pos (by omega)]
  · rw [if_neg (by omega), if_neg (by omega), if_pos (by omega)]
  · rw [if_neg (by omega), if_neg (by omega), if_neg (by omega), if_pos (by omega)]
  · rw [if_neg (by omega), if_neg (by omega), if_neg (by omega), if_neg (by omega)]

/-- C4, witness: the amended statement at the values of fontconfig, where
the midpoints are 75, 140, 190 and 205. -/
theorem weight_midpoint_upper_bucket_witness :
    xft_xlfd_weight_name fontconfigConsts
        ((fontconfigConsts.FC_WEIGHT_LIGHT + fontconfigConsts.FC_WEIGHT_MEDIUM).tdiv 2)
      = "regular" ∧
    xft_xlfd_weight_name fontconfigConsts
        ((fontconfigConsts.FC_WEIGHT_MEDIUM + fontconfigConsts.FC_WEIGHT_DEMIBOLD).tdiv 2)
      = "demibold" ∧
    xft_xlfd_weight_name fontconfigConsts
        ((fontconfigConsts.FC_WEIGHT_DEMIBOLD + fontconfigConsts.FC_WEIGHT_BOLD).tdiv 2)
      = "bold" ∧
    xft_xlfd_weight_name fontconfigConsts
        ((fontconfigConsts.FC_WEIGHT_BOLD + fontconfigConsts.FC_WEIGHT_BLACK).tdiv 2)
      = "black" :=
  weight_midpoint_upper_bucket fontconfigConsts (by decide) (by decide) (by decide)
    (by decide) (by decide)

/-- C4, counterexample: with the values of fontconfig the midpoint of light
(50) and medium (100) is 75, and weight 75 is named `regular`, not `light`;
likewise 140, 190 and 205 are named after the upper bucket. -/
theorem weight_midpoint_not_lower_bucket :
    (fontconfigConsts.FC_WEIGHT_LIGHT + fontconfigConsts.FC_WEIGHT_MEDIUM).tdiv 2 = 75 ∧
      xft_xlfd_weight_name fontconfigConsts 75 = "regular" ∧
      xft_xlfd_weight_name fontconfigConsts 75 ≠ "light" ∧
      xft_xlfd_weight_name fontconfigConsts 140 ≠ "regular" ∧
      xft_xlfd_weight_name fontconfigConsts 190 ≠ "demibold" ∧
      xft_xlfd_weight_name fontconfigConsts 205 ≠ "bold" := by
  decide

/-- C5, the code at the failing input: for a matched pattern whose pixel
size is 9999.5 (below 10000, so not clamped) `xft_xlfd_unparse` writes
10000 into the size field, above 9999. -/
theorem unparse_pixel_above_9999 :
    xlfd_pixel (some (19999 / 2)) = 10000 ∧
      xft_xlfd_unparse fontconfigConsts true
          { foundry := none, family := none, weight := none, slant := none,
            pixel_size := some (19999 / 2), spacing := none, file0 := none, file1 := none }
        = Ret.val "-*-*-*-*-*-*-10000-*-*-*-*-0-iso10646-1" := by
  have h : xlfd_pixel (some (19999 / 2)) = 10000 := by
    simp only [xlfd_pixel, castInt]
    norm_num
  refine ⟨h, ?_⟩
  simp only [xft_xlfd_unparse, h]
  decide

/-! ## The claims on the colour cache -/

/-- C6: with a cached context and the graphics context the face was built
with (`face->gc == gc`), `xftfont_get_colors` returns the cached foreground,
returns the cached background when a background is requested, and sends no
request; a second such call, whatever the output cells hold, returns the
same. -/
theorem get_colors_same_gc (srv : XServer) (face : Face) (gc : Nat)
    (info : xftface_info) (fg fg2 : XftColor) (bg bg2 : Option XftColor)
    (hgc : face.gc = gc) (hreq : bg.isSome = bg2.isSome) :
    (xftfont_get_colors srv face gc (some info) fg bg).1 = info.xft_fg ∧
    (bg.isSome = true →
      (xftfont_get_colors srv face gc (some info) fg bg).2.1 = some info.xft_bg) ∧
    (bg = none → (xftfont_get_colors srv face gc (some info) fg bg).2.1 = none) ∧
    (xftfont_get_colors srv face gc (some info) fg bg).2.2 = [] ∧
    xftfont_get_colors srv face gc (some info) fg2 bg2
      = xftfont_get_colors srv face gc (some info) fg bg := by
  subst hgc
  cases bg <;> cases bg2 <;> simp_all [xftfont_get_colors]

/-- C6, witness: a face built with graphics context 1, asked for with
graphics context 1 and a background. -/
theorem get_colors_same_gc_witness :
    (xftfont_get_colors ⟨fun _ => ⟨0, 0⟩, fun _ => (0, 0, 0)⟩ ⟨1, 10, 20⟩ 1
        (some ⟨⟨10, ⟨1, 2, 3, 65535⟩⟩, ⟨20, ⟨4, 5, 6, 65535⟩⟩, 0⟩)
        ⟨0, ⟨0, 0, 0, 0⟩⟩ (some ⟨0, ⟨0, 0, 0, 0⟩⟩)).1 = ⟨10, ⟨1, 2, 3, 65535⟩⟩ ∧
    (xftfont_get_colors ⟨fun _ => ⟨0, 0⟩, fun _ => (0, 0, 0)⟩ ⟨1, 10, 20⟩ 1
        (some ⟨⟨10, ⟨1, 2, 3, 65535⟩⟩, ⟨20, ⟨4, 5, 6, 65535⟩⟩, 0⟩)
        ⟨0, ⟨0, 0, 0, 0⟩⟩ (some ⟨0, ⟨0, 0, 0, 0⟩⟩)).2.2 = [] :=
  have h := get_colors_same_gc ⟨fun _ => ⟨0, 0⟩, fun _ => (0, 0, 0)⟩ ⟨1, 10, 20⟩ 1
    ⟨⟨10, ⟨1, 2, 3, 65535⟩⟩, ⟨20, ⟨4, 5, 6, 65535⟩⟩, 0⟩
    ⟨0, ⟨0, 0, 0, 0⟩⟩ ⟨9, ⟨9, 9, 9, 9⟩⟩ (some ⟨0, ⟨0, 0, 0, 0⟩⟩) (some ⟨9, ⟨9, 9, 9, 9⟩⟩)
    rfl rfl
  ⟨h.1, h.2.2.2.1⟩

/-- C7, as amended: with a cached context and a graphics context other
than the one of the face, `xftfont_get_colors` reads the live pixels; when
the foreground and (if requested) the background both match a logical colour
of the face, the cached colours are returned and no lookup is sent;
otherwise one lookup is sent for the live foreground pixel and, if
requested, the live background pixel, and it supplies every returned
colour, a colour that had matched the cache included. -/
theorem get_colors_other_gc (srv : XServer) (face : Face) (gc : Nat)
    (info : xftface_info) (fg : XftColor) (bg : Option XftColor) (hgc : face.gc ≠ gc) :
    (∀ cf, fgFromCache face info (srv.gcValues gc).foreground = some cf → bg = none →
      xftfont_get_colors srv face gc (some info) fg bg
        = (cf, none, [XRequest.getGCValues gc])) ∧
    (∀ cf cb b, fgFromCache face info (srv.gcValues gc).foreground = some cf →
      bg = some b → bgFromCache face info (srv.gcValues gc).background = some cb →
      xftfont_get_colors srv face gc (some info) fg bg
        = (cf, some cb, [XRequest.getGCValues gc])) ∧
    (fgFromCache face info (srv.gcValues gc).foreground = none → bg = none →
      xftfont_get_colors srv face gc (some info) fg bg
        = (lookedUp srv (srv.gcValues gc).foreground, none,
           [XRequest.getGCValues gc,
            XRequest.queryColors [(srv.gcValues gc).foreground]])) ∧
    (∀ b, bg = some b →
      (fgFromCache face info (srv.gcValues gc).foreground = none ∨
        bgFromCache face info (srv.gcValues gc).background = none) →
      xftfont_get_colors srv face gc (some info) fg bg
        = (lookedUp srv (srv.gcValues gc).foreground,
           some (lookedUp srv (srv.gcValues gc).background),
           [XRequest.getGCValues gc,
            XRequest.queryColors
              [(srv.gcValues gc).foreground, (srv.gcValues gc).background]])) := by
  have hd : decide (face.gc = gc) = false := by simpa using hgc
  refine ⟨?_, ?_, ?_, ?_⟩
  · intro cf hf hb
    subst hb
    unfold fgFromCache at hf
    unfold xftfont_get_colors
    rw [hd]
    by_cases h1 : (srv.gcValues gc).foreground = face.foreground <;>
      by_cases h2 : (srv.gcValues gc).foreground = face.background <;>
      simp_all
  · intro cf cb b hf hb hbg
    subst hb
    unfold fgFromCache at hf
    unfold bgFromCache at hbg
    unfold xftfont_get_colors
    rw [hd]
    by_cases h1 : (srv.gcValues gc).foreground = face.foreground <;>
      by_cases h2 : (srv.gcValues gc).foreground = face.background <;>
      by_cases h3 : (srv.gcValues gc).background = face.background <;>
      by_cases h4 : (srv.gcValues gc).background = face.foreground <;>
      simp_all
  · intro hf hb
    subst hb
    unfold fgFromCache at hf
    unfold xftfont_get_colors
    rw [hd]
    by_cases h1 : (srv.gcValues gc).foreground = face.foreground <;>
      by_cases h2 : (srv.gcValues gc).foreground = face.background <;>
      simp_all
  · intro b hb hmiss
    subst hb
    unfold fgFromCache bgFromCache at hmiss
    unfold xftfont_get_colors
    rw [hd]
    by_cases h1 : (srv.gcValues gc).foreground = face.foreground <;>
      by_cases h2 : (srv.gcValues gc).foreground = face.background <;>
      by_cases h3 : (srv.gcValues gc).background = face.background <;>
      by_cases h4 : (srv.gcValues gc).background = face.foreground <;>
      simp_all

/-- C7, witness: the amended statement for a face built with graphics
context 1 and asked for with graphics context 2. -/
theorem get_colors_other_gc_witness :
    xftfont_get_colors ⟨fun _ => ⟨10, 30⟩, fun _ => (7, 8, 9)⟩ ⟨1, 10, 20⟩ 2
        (some ⟨⟨10, ⟨1, 2, 3, 65535⟩⟩, ⟨20, ⟨4, 5, 6, 65535⟩⟩, 0⟩)
        ⟨0, ⟨0, 0, 0, 0⟩⟩ none
      = (⟨10, ⟨1, 2, 3, 65535⟩⟩, none, [XRequest.getGCValues 2]) :=
  (get_colors_other_gc ⟨fun _ => ⟨10, 30⟩, fun _ => (7, 8, 9)⟩ ⟨1, 10, 20⟩ 2
      ⟨⟨10, ⟨1, 2, 3, 65535⟩⟩, ⟨20, ⟨4, 5, 6, 65535⟩⟩, 0⟩
      ⟨0, ⟨0, 0, 0, 0⟩⟩ none (by decide)).1 ⟨10, ⟨1, 2, 3, 65535⟩⟩ rfl rfl

/-- C7, counterexample: the face has logical foreground 10 and background
20 and was built with graphics context 1; graphics context 2 has live
foreground 10 and live background 30, and a background is requested.  The
foreground matches the cache, yet the lookup is sent for both pixels and
the returned foreground is the looked-up colour, not the cached one. -/
theorem get_colors_lookup_overwrites_cached :
    fgFromCache ⟨1, 10, 20⟩ ⟨⟨10, ⟨1, 2, 3, 65535⟩⟩, ⟨20, ⟨4, 5, 6, 65535⟩⟩, 0⟩ 10
        = some ⟨10, ⟨1, 2, 3, 65535⟩⟩ ∧
      xftfont_get_colors ⟨fun _ => ⟨10, 30⟩, fun _ => (7, 8, 9)⟩ ⟨1, 10, 20⟩ 2
          (some ⟨⟨10, ⟨1, 2, 3, 65535⟩⟩, ⟨20, ⟨4, 5, 6, 65535⟩⟩, 0⟩)
          ⟨0, ⟨0, 0, 0, 0⟩⟩ (some ⟨0, ⟨0, 0, 0, 0⟩⟩)
        = (⟨10, ⟨7, 8, 9, 65535⟩⟩, some ⟨30, ⟨7, 8, 9, 65535⟩⟩,
           [XRequest.getGCValues 2, XRequest.queryColors [10, 30]]) ∧
      (xftfont_get_colors ⟨fun _ => ⟨10, 30⟩, fun _ => (7, 8, 9)⟩ ⟨1, 10, 20⟩ 2
          (some ⟨⟨10, ⟨1, 2, 3, 65535⟩⟩, ⟨20, ⟨4, 5, 6, 65535⟩⟩, 0⟩)
          ⟨0, ⟨0, 0, 0, 0⟩⟩ (some ⟨0, ⟨0, 0, 0, 0⟩⟩)).1
        ≠ ⟨10, ⟨1, 2, 3, 65535⟩⟩ := by
  decide

/-! ## Lemmas on opening and closing -/

/-- C8: for every entity whose backing pattern has no file-path attribute,
`xftfont_open` returns `NULL` and leaves the driver state as it was: the
count of open fonts, the smallest font height, the smallest character width
and `fonts_changed_p` keep their values. -/
theorem open_without_file (k : FcConsts) (env : OpenEnv) (st : DriverState)
    (entity : Entity) (pixel_size : Int) (pattern : FcPattern)
    (he : entity.extra = some pattern) (hf : pattern.file0 = none) :
    xftfont_open k env st entity pixel_size = (Opened.null, st) ∧
    (xftfont_open k env st entity pixel_size).2.dpyinfo.n_fonts = st.dpyinfo.n_fonts ∧
    (xftfont_open k env st entity pixel_size).2.dpyinfo.smallest_font_height
      = st.dpyinfo.smallest_font_height ∧
    (xftfont_open k env st entity pixel_size).2.dpyinfo.smallest_char_width
      = st.dpyinfo.smallest_char_width ∧
    (xftfont_open k env st entity pixel_size).2.fonts_changed_p = st.fonts_changed_p := by
  have h : xftfont_open k env st entity pixel_size = (Opened.null, st) := by
    simp only [xftfont_open, he, hf]
  rw [h]
  exact ⟨rfl, rfl, rfl, rfl, rfl⟩

/-- C8, witness: an entity whose pattern has no file, opened while three
fonts are open. -/
theorem open_without_file_witness :
    xftfont_open fontconfigConsts sampleEnv sampleState ⟨some patternNoFile, 12⟩ 12
        = (Opened.null, sampleState) ∧
      (xftfont_open fontconfigConsts sampleEnv sampleState
        ⟨some patternNoFile, 12⟩ 12).2.dpyinfo.n_fonts = 3 :=
  have h := open_without_file fontconfigConsts sampleEnv sampleState
    ⟨some patternNoFile, 12⟩ 12 patternNoFile rfl rfl
  ⟨h.1, h.2.1⟩

/-- C10, the code at the failing input: on an outline glyph of two points
the point index -1 passes the only test, `index >= n_points`, and the point
is read in front of the array; the call does not return -1.  An index from
`n_points` on returns -1, an index inside returns 0 with the point. -/
theorem anchor_point_negative_index :
    xftfont_anchor_point sampleFace 0 (-1) = Anchor.undefined ∧
      xftfont_anchor_point sampleFace 0 (-1) ≠ Anchor.returned (-1) none ∧
      xftfont_anchor_point sampleFace 0 2 = Anchor.returned (-1) none ∧
      xftfont_anchor_point sampleFace 0 1 = Anchor.returned 0 (some (3, 4)) := by
  decide

/-! ## The claim on failed allocations in `xftfont_open` -/

/-- C11, the code at the failing input: with the font opened by the
rasterizer, a failed allocation of the `struct xftfont_info` makes
`xftfont_open` return `NULL` with the driver state unchanged; a failed
allocation of the pseudo `XFontStruct` does not: the test after it reads
`xftfont_info` again, the function goes on and writes through the `NULL`
pointer `xfont`, and no `NULL` is returned. -/
theorem open_xfont_alloc_not_checked :
    envNoInfo.openPattern.isSome = true ∧
      xftfont_open fontconfigConsts envNoInfo sampleState ⟨some samplePattern, 12⟩ 12
        = (Opened.null, sampleState) ∧
      envNoXfont.openPattern.isSome = true ∧ envNoXfont.mallocInfo = true ∧
      envNoXfont.mallocXfont = false ∧
      (xftfont_open fontconfigConsts envNoXfont sampleState ⟨some samplePattern, 12⟩ 12).1
        = Opened.undefined ∧
      (xftfont_open fontconfigConsts envNoXfont sampleState ⟨some samplePattern, 12⟩ 12).1
        ≠ Opened.null := by
  have h : (xftfont_open fontconfigConsts envNoXfont sampleState
      ⟨some samplePattern, 12⟩ 12).1 = Opened.undefined := rfl
  refine ⟨rfl, rfl, rfl, rfl, rfl, h, ?_⟩
  rw [h]
  intro hn
  cases hn

end XftFont
